import Mathlib

/-!
Verification of the booking/availability engine
(`backend/src/services/availabilityService.ts` and
`backend/src/services/bookingService.ts`).

The TypeScript code is shallowly embedded: database tables become lists of
rows, SQL queries become list filters, `async` functions become pure
functions over an explicit `DB` value, thrown errors become `Except`, and
JavaScript `NaN` propagation in time arithmetic becomes `Option Nat`
(`none` = `NaN`; comparisons against `NaN` are `false`, matching JS).
Dates are modelled as day numbers (`Nat`); `Date.prototype.getDay` becomes
`(d + 4) % 7` so that day `0` is a Thursday, as for the Unix epoch.
JavaScript string primitives used by the source (`split(':')`,
`Number(...)` on digit strings, `toString()`/`padStart(2,'0')` on naturals,
`toLowerCase`) are modelled by executable character-list functions below.
-/

namespace Book

/-- Decimal digit character for `d < 10` (models the digits of JS
`Number.prototype.toString()`). -/
def digitChar : Nat → Char
  | 0 => '0' | 1 => '1' | 2 => '2' | 3 => '3' | 4 => '4'
  | 5 => '5' | 6 => '6' | 7 => '7' | 8 => '8' | _ => '9'

/-- Accumulator form of decimal rendering of a natural number; the fuel
only bounds the number of digits (`n + 1` always suffices) and keeps the
recursion structural. -/
def natReprGo (fuel : Nat) (n : Nat) (acc : List Char) : List Char :=
  match fuel with
  | 0 => acc
  | Nat.succ fuel' =>
    if n < 10 then digitChar n :: acc
    else natReprGo fuel' (n / 10) (digitChar (n % 10) :: acc)

/-- The decimal digit string of a natural number. -/
def natRepr (n : Nat) : List Char := natReprGo (n + 1) n []

/-- Models JS `n.toString()` for a natural number. -/
def natToStr (n : Nat) : String := ⟨natRepr n⟩

/-- Models JS `n.toString().padStart(2, '0')` (used by `generateTimeSlots`
to format slot times). -/
def pad2 (n : Nat) : String := if n < 10 then "0" ++ natToStr n else natToStr n

/-- Value of a decimal digit character; `none` for a non-digit. -/
def digitVal (c : Char) : Option Nat :=
  if c.isDigit then some (c.toNat - 48) else none

/-- One step of left-to-right decimal parsing; `none` models `NaN`. -/
def parseStep (acc : Option Nat) (c : Char) : Option Nat :=
  match acc, digitVal c with
  | some a, some d => some (a * 10 + d)
  | _, _ => none

/-- Models JS `Number(s)` on an unsigned-decimal string: the empty string
yields `0` (as `Number('')` does), a digit string yields its value, and any
other string yields `NaN` (`none`).  The source only ever applies `Number`
to segments of `HH:MM`/`HH:MM:SS` strings, for which this model is exact. -/
def parseDigits (l : List Char) : Option Nat :=
  l.foldl parseStep (some 0)

/-- Models JS `s.split(sep)` for a one-character separator: the number of
parts is the number of separators plus one. -/
def splitOnChar (c : Char) : List Char → List (List Char)
  | [] => [[]]
  | x :: xs =>
    if x = c then [] :: splitOnChar c xs
    else
      match splitOnChar c xs with
      | [] => [[x]]
      | y :: ys => (x :: y) :: ys

/-- `AvailabilityService.timeStringToMinutes`:
`const [hours, minutes] = timeStr.split(':').map(Number);
 return hours * 60 + minutes;`
`none` is the `NaN` result: a missing second segment destructures to
`undefined` (`Number(undefined) = NaN`) and a non-digit segment parses to
`NaN`; extra segments (as in MySQL `HH:MM:SS`) are ignored. -/
def timeStringToMinutes (timeStr : String) : Option Nat :=
  match splitOnChar ':' timeStr.data with
  | h :: m :: _ =>
    match parseDigits h, parseDigits m with
    | some hv, some mv => some (hv * 60 + mv)
    | _, _ => none
  | _ => none

/-- JS `<` on possibly-`NaN` numbers: any comparison with `NaN` is false. -/
def optLt (a b : Option Nat) : Bool :=
  match a, b with
  | some x, some y => decide (x < y)
  | _, _ => false

/-- JS `<=`/`>=` on possibly-`NaN` numbers: false when either is `NaN`. -/
def optLe (a b : Option Nat) : Bool :=
  match a, b with
  | some x, some y => decide (x ≤ y)
  | _, _ => false

/-- `AvailabilityService.timeSlotsOverlap`: half-open interval overlap
`s1 < e2 && s2 < e1` on parsed minutes. -/
def timeSlotsOverlap (slot1Start slot1End slot2Start slot2End : String) : Bool :=
  optLt (timeStringToMinutes slot1Start) (timeStringToMinutes slot2End) &&
  optLt (timeStringToMinutes slot2Start) (timeStringToMinutes slot1End)

/-- The slot-time formatting inside `generateTimeSlots`:
`hour.toString().padStart(2,'0') + ':' + minute.toString().padStart(2,'0')`
applied to `m / 60` and `m % 60`. -/
def minutesToTimeStr (m : Nat) : String := pad2 (m / 60) ++ ":" ++ pad2 (m % 60)

/-! ## Lemmas about the string/number primitives -/

theorem natReprGo_eq (n : Nat) :
    ∀ fuel acc, n < fuel → natReprGo fuel n acc = natRepr n ++ acc := by
  induction n using Nat.strong_induction_on with
  | _ n ih =>
    intro fuel acc h
    match fuel with
    | 0 => omega
    | Nat.succ fuel' =>
      by_cases h10 : n < 10
      · rw [natReprGo, if_pos h10, natRepr, natReprGo, if_pos h10]
        rfl
      · have hdiv : n / 10 < n := Nat.div_lt_self (by omega) (by omega)
        rw [natReprGo, if_neg h10, ih _ hdiv fuel' _ (by omega)]
        conv_rhs =>
          rw [natRepr, natReprGo, if_neg h10, ih _ hdiv n _ (by omega)]
        simp

theorem natRepr_unfold (n : Nat) :
    natRepr n = if n < 10 then [digitChar n]
      else natRepr (n / 10) ++ [digitChar (n % 10)] := by
  by_cases h : n < 10
  · rw [natRepr, natReprGo, if_pos h, if_pos h]
  · have hdiv : n / 10 < n := Nat.div_lt_self (by omega) (by omega)
    rw [natRepr, natReprGo, if_neg h, if_neg h,
      natReprGo_eq (n / 10) n _ (by omega)]

theorem digitVal_digitChar (d : Nat) (h : d < 10) :
    digitVal (digitChar d) = some d := by
  interval_cases d <;> decide

theorem digitChar_isDigit (d : Nat) (h : d < 10) :
    (digitChar d).isDigit = true := by
  interval_cases d <;> decide

theorem natRepr_digits (n : Nat) :
    ∀ c ∈ natRepr n, c.isDigit = true := by
  induction n using Nat.strong_induction_on with
  | _ n ih =>
    intro c hc
    rw [natRepr_unfold] at hc
    by_cases h : n < 10
    · rw [if_pos h] at hc
      simp at hc
      subst hc
      exact digitChar_isDigit n h
    · rw [if_neg h] at hc
      rcases List.mem_append.mp hc with h1 | h2
      · exact ih _ (Nat.div_lt_self (by omega) (by omega)) c h1
      · simp at h2
        subst h2
        exact digitChar_isDigit _ (Nat.mod_lt _ (by omega))

theorem isDigit_ne_colon {c : Char} (h : c.isDigit = true) : c ≠ ':' := by
  intro he
  subst he
  simp [Char.isDigit] at h

theorem foldl_parseStep_repr (n : Nat) :
    ∀ v : Nat, List.foldl parseStep (some v) (natRepr n) =
      some (v * 10 ^ (natRepr n).length + n) := by
  induction n using Nat.strong_induction_on with
  | _ n ih =>
    intro v
    rw [natRepr_unfold]
    by_cases h : n < 10
    · rw [if_pos h]
      simp [parseStep, digitVal_digitChar n h]
    · rw [if_neg h]
      have hd : n / 10 < n := Nat.div_lt_self (by omega) (by omega)
      rw [List.foldl_append, ih _ hd v]
      simp only [List.foldl_cons, List.foldl_nil, parseStep,
        digitVal_digitChar (n % 10) (Nat.mod_lt _ (by omega))]
      rw [List.length_append]
      simp [Nat.pow_succ]
      ring_nf
      have := Nat.div_add_mod n 10
      omega

theorem parseDigits_natToStr (n : Nat) : parseDigits (natToStr n).data = some n := by
  rw [natToStr]
  show List.foldl parseStep (some 0) (natRepr n) = some n
  rw [foldl_parseStep_repr n 0]
  simp

theorem parseDigits_pad2 (n : Nat) : parseDigits (pad2 n).data = some n := by
  rw [pad2]
  by_cases h : n < 10
  · rw [if_pos h, String.data_append]
    show List.foldl parseStep (some 0) (['0'] ++ (natToStr n).data) = some n
    rw [List.foldl_append]
    have h0 : List.foldl parseStep (some 0) ['0'] = some 0 := by decide
    rw [h0]
    exact parseDigits_natToStr n
  · rw [if_neg h]
    exact parseDigits_natToStr n

theorem pad2_no_colon (n : Nat) : ∀ c ∈ (pad2 n).data, c ≠ ':' := by
  intro c hc
  rw [pad2] at hc
  by_cases h : n < 10
  · rw [if_pos h, String.data_append] at hc
    rcases List.mem_append.mp hc with h1 | h2
    · simp at h1
      subst h1
      decide
    · exact isDigit_ne_colon (natRepr_digits n c h2)
  · rw [if_neg h] at hc
    exact isDigit_ne_colon (natRepr_digits n c hc)

theorem splitOnChar_of_not_mem (c : Char) (l : List Char)
    (h : ∀ x ∈ l, x ≠ c) : splitOnChar c l = [l] := by
  induction l with
  | nil => rfl
  | cons x xs ih =>
    rw [splitOnChar]
    rw [if_neg (h x (by simp))]
    rw [ih (fun y hy => h y (by simp [hy]))]

theorem splitOnChar_append (c : Char) (l1 l2 : List Char)
    (h : ∀ x ∈ l1, x ≠ c) :
    splitOnChar c (l1 ++ c :: l2) = l1 :: splitOnChar c l2 := by
  induction l1 with
  | nil =>
    simp [splitOnChar]
  | cons x xs ih =>
    rw [List.cons_append, splitOnChar, if_neg (h x (by simp)),
      ih (fun y hy => h y (by simp [hy]))]

theorem timeStringToMinutes_pad_pair (a b : Nat) :
    timeStringToMinutes (pad2 a ++ ":" ++ pad2 b) = some (a * 60 + b) := by
  rw [timeStringToMinutes]
  have hdata : (pad2 a ++ ":" ++ pad2 b).data = (pad2 a).data ++ ':' :: (pad2 b).data := by
    rw [String.data_append, String.data_append]
    simp
  rw [hdata, splitOnChar_append ':' _ _ (pad2_no_colon a),
    splitOnChar_of_not_mem ':' _ (fun x hx => pad2_no_colon b x hx)]
  simp [parseDigits_pad2]

theorem timeStringToMinutes_minutesToTimeStr (m : Nat) :
    timeStringToMinutes (minutesToTimeStr m) = some m := by
  rw [minutesToTimeStr, timeStringToMinutes_pad_pair]
  congr 1
  have := Nat.div_add_mod m 60
  omega

/-! ## Slot generation (`AvailabilityService.generateTimeSlots`) -/

/-- The `TimeSlot` shape produced by the service: formatted times, an
`available` flag, and the `staff_member_id` tag spread in by the staff
branch of `getAvailableSlots`. -/
structure TimeSlot where
  start_time : String
  end_time : String
  available : Bool
  staff_member_id : Option Nat := none
deriving Repr, DecidableEq

/-- The raw `for` loop of `generateTimeSlots` at minute granularity, with
explicit fuel: starting at `cur`, while `cur + duration ≤ endM`, emit
`(cur, cur + duration)` and advance by `step = duration + bufferAfter`.
`none` means the fuel ran out with the loop guard still true — i.e. the JS
loop has not terminated within `fuel` iterations. -/
def genLoop (fuel cur endM duration step : Nat) : Option (List (Nat × Nat)) :=
  match fuel with
  | 0 => if cur + duration ≤ endM then none else some []
  | Nat.succ fuel' =>
    if cur + duration ≤ endM then
      (genLoop fuel' (cur + step) endM duration step).map
        (fun rest => (cur, cur + duration) :: rest)
    else some []

/-- Total form of the same loop.  The structural fuel `endM + 1 - cur`
always suffices because each iteration advances `cur` by `step ≥ 1` (the
`0 < step` conjunct makes the function total even at `step = 0`, where the
JS loop diverges); `genSlots` agrees with `genLoop` whenever `0 < step`
(see `genLoop_eq_genSlots`), which is exactly when the JS loop
terminates. -/
def genSlotsAux (fuel cur endM duration step : Nat) : List (Nat × Nat) :=
  match fuel with
  | 0 => []
  | Nat.succ fuel' =>
    if 0 < step ∧ cur + duration ≤ endM then
      (cur, cur + duration) :: genSlotsAux fuel' (cur + step) endM duration step
    else []

def genSlots (cur endM duration step : Nat) : List (Nat × Nat) :=
  genSlotsAux (endM + 1 - cur) cur endM duration step

/-- Formatting of one generated slot (`available: true`, no staff tag). -/
def mkSlot (p : Nat × Nat) : TimeSlot :=
  { start_time := minutesToTimeStr p.1
    end_time := minutesToTimeStr p.2
    available := true
    staff_member_id := none }

/-- `AvailabilityService.generateTimeSlots` with explicit fuel for the
loop: parses the two `HH:MM` strings (a `NaN` start or end makes the loop
guard false immediately, so the JS function returns `[]`), then runs the
loop and formats each slot back to strings. -/
def generateTimeSlots (fuel : Nat) (startTime endTime : String)
    (duration bufferAfter : Nat) : Option (List TimeSlot) :=
  match timeStringToMinutes startTime, timeStringToMinutes endTime with
  | some s, some e =>
    (genLoop fuel s e duration (duration + bufferAfter)).map
      (fun l => l.map mkSlot)
  | _, _ => some []

/-- The fuel-free slot list used inside `getAvailableSlots` (faithful to
the source whenever `0 < duration + bufferAfter`, i.e. whenever the JS
loop terminates). -/
def generateTimeSlotsT (startTime endTime : String)
    (duration bufferAfter : Nat) : List TimeSlot :=
  match timeStringToMinutes startTime, timeStringToMinutes endTime with
  | some s, some e => (genSlots s e duration (duration + bufferAfter)).map mkSlot
  | _, _ => []

/-! ## Loop lemmas -/

theorem genLoop_get (fuel : Nat) :
    ∀ cur endM duration step l, genLoop fuel cur endM duration step = some l →
      ∀ i : Nat, ∀ h : i < l.length,
        l.get ⟨i, h⟩ = (cur + i * step, cur + i * step + duration) ∧
        cur + i * step + duration ≤ endM := by
  induction fuel with
  | zero =>
    intro cur endM duration step l hl i h
    rw [genLoop] at hl
    by_cases hg : cur + duration ≤ endM
    · rw [if_pos hg] at hl; exact absurd hl (by simp)
    · rw [if_neg hg] at hl
      cases hl
      exact absurd h (by simp)
  | succ fuel' ih =>
    intro cur endM duration step l hl i h
    rw [genLoop] at hl
    by_cases hg : cur + duration ≤ endM
    · rw [if_pos hg] at hl
      cases hrec : genLoop fuel' (cur + step) endM duration step with
      | none => rw [hrec] at hl; simp at hl
      | some rest =>
        rw [hrec] at hl
        injection hl with hl
        subst hl
        cases i with
        | zero => simpa using hg
        | succ j =>
          have hj : j < rest.length := by simpa using h
          have := ih (cur + step) endM duration step rest hrec j hj
          constructor
          · show rest.get ⟨j, hj⟩ = _
            rw [this.1]
            have he : cur + step + j * step = cur + (j + 1) * step := by ring
            rw [he]
          · have h2 := this.2
            have : cur + step + j * step = cur + (j + 1) * step := by ring
            omega
    · rw [if_neg hg] at hl
      cases hl
      exact absurd h (by simp)

theorem genLoop_empty_of_short (fuel cur endM duration step : Nat)
    (h : endM < cur + duration) : genLoop fuel cur endM duration step = some [] := by
  cases fuel with
  | zero => rw [genLoop, if_neg (by omega)]
  | succ fuel' => rw [genLoop, if_neg (by omega)]

theorem genLoop_terminates (fuel : Nat) :
    ∀ cur endM duration step, 1 ≤ step → endM + 1 ≤ cur + fuel →
      ∃ l, genLoop fuel cur endM duration step = some l := by
  induction fuel with
  | zero =>
    intro cur endM duration step hs hf
    refine ⟨[], ?_⟩
    rw [genLoop, if_neg (by omega)]
  | succ fuel' ih =>
    intro cur endM duration step hs hf
    rw [genLoop]
    by_cases hg : cur + duration ≤ endM
    · rw [if_pos hg]
      obtain ⟨l, hl⟩ := ih (cur + step) endM duration step hs (by omega)
      exact ⟨(cur, cur + duration) :: l, by rw [hl]; rfl⟩
    · rw [if_neg hg]
      exact ⟨[], rfl⟩

theorem genLoop_stuck_of_zero_step (fuel : Nat) :
    ∀ cur endM duration, cur + duration ≤ endM →
      genLoop fuel cur endM duration 0 = none := by
  induction fuel with
  | zero =>
    intro cur endM duration hg
    rw [genLoop, if_pos hg]
  | succ fuel' ih =>
    intro cur endM duration hg
    rw [genLoop, if_pos hg]
    rw [Nat.add_zero, ih cur endM duration hg]
    rfl

theorem genSlotsAux_nil_of_stop (fuel cur endM duration step : Nat)
    (h : ¬(0 < step ∧ cur + duration ≤ endM)) :
    genSlotsAux fuel cur endM duration step = [] := by
  cases fuel with
  | zero => rfl
  | succ fuel' => rw [genSlotsAux, if_neg h]

theorem genLoop_eq_genSlotsAux (fuel : Nat) :
    ∀ cur endM duration step l, 1 ≤ step →
      genLoop fuel cur endM duration step = some l →
      ∀ fuel', endM + 1 ≤ cur + fuel' →
        l = genSlotsAux fuel' cur endM duration step := by
  induction fuel with
  | zero =>
    intro cur endM duration step l hs hl fuel' hf
    rw [genLoop] at hl
    by_cases hg : cur + duration ≤ endM
    · rw [if_pos hg] at hl; simp at hl
    · rw [if_neg hg] at hl
      cases hl
      rw [genSlotsAux_nil_of_stop _ _ _ _ _ (by omega)]
  | succ fuel'' ih =>
    intro cur endM duration step l hs hl fuel' hf
    rw [genLoop] at hl
    by_cases hg : cur + duration ≤ endM
    · rw [if_pos hg] at hl
      cases hrec : genLoop fuel'' (cur + step) endM duration step with
      | none => rw [hrec] at hl; simp at hl
      | some rest =>
        rw [hrec] at hl
        injection hl with hl
        subst hl
        match fuel' with
        | 0 => omega
        | Nat.succ f' =>
          rw [genSlotsAux, if_pos ⟨by omega, hg⟩]
          rw [ih (cur + step) endM duration step rest hs hrec f' (by omega)]
    · rw [if_neg hg] at hl
      cases hl
      rw [genSlotsAux_nil_of_stop _ _ _ _ _ (by omega)]

theorem genLoop_eq_genSlots (fuel cur endM duration step : Nat)
    (l : List (Nat × Nat)) (hs : 1 ≤ step)
    (hl : genLoop fuel cur endM duration step = some l) :
    l = genSlots cur endM duration step :=
  genLoop_eq_genSlotsAux fuel cur endM duration step l hs hl _ (by omega)

theorem genSlotsAux_mem (fuel : Nat) :
    ∀ cur endM duration step, ∀ p ∈ genSlotsAux fuel cur endM duration step,
      ∃ c, p = (c, c + duration) ∧ cur ≤ c ∧ c + duration ≤ endM := by
  induction fuel with
  | zero =>
    intro cur endM duration step p hp
    exact absurd hp (by simp [genSlotsAux])
  | succ fuel' ih =>
    intro cur endM duration step p hp
    rw [genSlotsAux] at hp
    by_cases hg : 0 < step ∧ cur + duration ≤ endM
    · rw [if_pos hg] at hp
      rcases List.mem_cons.mp hp with h1 | h2
      · exact ⟨cur, h1, le_refl _, hg.2⟩
      · obtain ⟨c, hc, hcur, hend⟩ := ih (cur + step) endM duration step p h2
        exact ⟨c, hc, by omega, hend⟩
    · rw [if_neg hg] at hp
      exact absurd hp (by simp)

theorem genSlots_mem (cur endM duration step : Nat) :
    ∀ p ∈ genSlots cur endM duration step,
      ∃ c, p = (c, c + duration) ∧ cur ≤ c ∧ c + duration ≤ endM :=
  genSlotsAux_mem _ cur endM duration step

/-! ## Data model

Rows of the tables the two services read and write (only the columns the
embedded functions touch), and the database as lists of rows.  Nullable
columns are `Option`; MySQL `TIME`/`VARCHAR(5)` time-of-day columns stay
`String` exactly as the services receive them; `DATE` columns are day
numbers. -/

structure BusinessRow where
  id : Nat
  booking_link_slug : String
  is_active : Bool
  cancellation_hours : Option Nat
deriving Repr, DecidableEq

structure ServiceRow where
  id : Nat
  business_id : Nat
  duration_minutes : Nat
  buffer_after_minutes : Option Nat
  requires_staff : Bool
  capacity : Nat
  is_active : Bool
deriving Repr, DecidableEq

structure StaffMemberRow where
  id : Nat
  is_active : Bool
deriving Repr, DecidableEq

structure StaffServiceRow where
  staff_member_id : Nat
  service_id : Nat
deriving Repr, DecidableEq

structure AvailabilityRuleRow where
  business_id : Option Nat
  staff_member_id : Option Nat
  day_of_week : Nat
  start_time : String
  end_time : String
  is_active : Bool
deriving Repr, DecidableEq

structure SpecialAvailabilityRow where
  business_id : Option Nat
  staff_member_id : Option Nat
  date : Nat
  start_time : Option String
  end_time : Option String
  is_available : Bool
  reason : Option String
deriving Repr, DecidableEq

structure BookingRow where
  id : Nat
  business_id : Nat
  service_id : Nat
  staff_member_id : Option Nat
  customer_name : String
  customer_email : String
  customer_phone : Option String
  booking_date : Nat
  start_time : String
  end_time : String
  party_size : Nat
  special_requests : Option String
  status : String
  payment_status : String
  cancellation_reason : Option String
  cancelled_at : Option Nat
  updated_at : Option Nat
deriving Repr, DecidableEq

structure DB where
  businesses : List BusinessRow
  services : List ServiceRow
  staff_members : List StaffMemberRow
  staff_services : List StaffServiceRow
  availability_rules : List AvailabilityRuleRow
  special_availability : List SpecialAvailabilityRow
  bookings : List BookingRow
deriving Repr, DecidableEq

structure DayAvailability where
  date : Nat
  day_of_week : Nat
  time_slots : List TimeSlot
deriving Repr, DecidableEq

/-- `new Date(date).getDay()` on the day-number model: day 0 is a
Thursday (weekday 4), matching the Unix epoch under the source's
0=Sunday .. 6=Saturday convention. -/
def dayOfWeek (date : Nat) : Nat := (date + 4) % 7

/-- JS truthiness of a nullable number (`null`/`undefined` and `0` falsy). -/
def numTruthy : Option Nat → Bool
  | some n => n != 0
  | none => false

/-- JS truthiness of a nullable string (`null`/`undefined` and `''` falsy). -/
def strTruthy : Option String → Bool
  | some s => !s.isEmpty
  | none => false

/-- JS `x || d` for a nullable string `x`. -/
def orFalsyStr (u : Option String) (d : String) : String :=
  if strTruthy u then u.getD "" else d

/-- JS `x || d` for a nullable number `x` (so a stored `0` also falls back
to `d`, as with `booking.cancellation_hours || 24`). -/
def orFalsyNat (u : Option Nat) (d : Nat) : Nat :=
  if numTruthy u then u.getD 0 else d

/-- ASCII lower-casing of one character (models
`String.prototype.toLowerCase` on the ASCII emails the service compares). -/
def charToLower (c : Char) : Char :=
  if 'A' ≤ c ∧ c ≤ 'Z' then Char.ofNat (c.toNat + 32) else c

/-- Models `s.toLowerCase()`. -/
def jsToLower (s : String) : String := ⟨s.data.map charToLower⟩

/-! ## AvailabilityService queries and helpers -/

/-- The service lookup shared by `isTimeSlotAvailable`, `getAvailableSlots`
and `getServiceDetails`:
`SELECT ... FROM services WHERE id = ? AND business_id = ? AND is_active = true`. -/
def findService (db : DB) (serviceId businessId : Nat) : Option ServiceRow :=
  db.services.find? (fun s =>
    s.id == serviceId && s.business_id == businessId && s.is_active)

/-- `SELECT start_time, end_time FROM availability_rules
WHERE business_id = ? AND day_of_week = ? AND is_active = true`
(identical in `isTimeSlotAvailable` and `getAvailableSlots`). -/
def businessRulesFor (db : DB) (businessId dow : Nat) : List AvailabilityRuleRow :=
  db.availability_rules.filter (fun r =>
    r.business_id == some businessId && r.day_of_week == dow && r.is_active)

/-- `SELECT start_time, end_time FROM availability_rules
WHERE staff_member_id = ? AND day_of_week = ? AND is_active = true`. -/
def staffRulesFor (db : DB) (staffId dow : Nat) : List AvailabilityRuleRow :=
  db.availability_rules.filter (fun r =>
    r.staff_member_id == some staffId && r.day_of_week == dow && r.is_active)

/-- The bookings fetched by `getAvailableSlots` for conflict marking:
`SELECT ... FROM bookings WHERE business_id = ? AND service_id = ?
AND booking_date = ? AND status IN ('confirmed', 'pending')`. -/
def relevantBookings (db : DB) (businessId serviceId date : Nat) : List BookingRow :=
  db.bookings.filter (fun b =>
    b.business_id == businessId && b.service_id == serviceId &&
    b.booking_date == date && (b.status == "confirmed" || b.status == "pending"))

/-- `AvailabilityService.canStaffPerformService`: the `staff_services` ⋈
`staff_members` lookup with `sm.is_active = true`. -/
def canStaffPerformService (db : DB) (staffMemberId serviceId : Nat) : Bool :=
  db.staff_services.any (fun ss =>
    ss.staff_member_id == staffMemberId && ss.service_id == serviceId &&
    db.staff_members.any (fun sm => sm.id == ss.staff_member_id && sm.is_active))

/-- `AvailabilityService.getBusinessIdFromSlug`. -/
def getBusinessIdFromSlug (db : DB) (slug : String) : Option Nat :=
  (db.businesses.find? (fun b => b.booking_link_slug == slug && b.is_active)).map
    (fun b => b.id)

/-! ## `getAvailableSlots` -/

/-- Active staff able to perform the service (`staff_services` ⋈ active
`staff_members` for the service), as queried by the staff branch of
`getAvailableSlots`. -/
def capableStaffIds (db : DB) (serviceId : Nat) : List Nat :=
  (db.staff_services.filter (fun ss =>
    ss.service_id == serviceId &&
    db.staff_members.any (fun sm => sm.id == ss.staff_member_id && sm.is_active))).map
    (fun ss => ss.staff_member_id)

/-- Staff branch of slot generation: per capable staff member, per weekly
rule for the weekday, generate slots and spread in the staff id. -/
def staffGeneratedSlots (db : DB) (service : ServiceRow) (serviceId dow : Nat) : List TimeSlot :=
  (capableStaffIds db serviceId).flatMap (fun staffId =>
    (staffRulesFor db staffId dow).flatMap (fun rule =>
      (generateTimeSlotsT rule.start_time rule.end_time service.duration_minutes
        (orFalsyNat service.buffer_after_minutes 0)).map
        (fun slot => { slot with staff_member_id := some staffId })))

/-- Business branch of slot generation: per weekly business rule for the
weekday, generate untagged slots. -/
def businessGeneratedSlots (db : DB) (service : ServiceRow) (businessId dow : Nat) : List TimeSlot :=
  (businessRulesFor db businessId dow).flatMap (fun rule =>
    generateTimeSlotsT rule.start_time rule.end_time service.duration_minutes
      (orFalsyNat service.buffer_after_minutes 0))

/-- The `special_availability` rows fetched by `getAvailableSlots`:
business-scoped rows, plus (for staff services) rows of any staff member
linked to the service via `staff_services`. -/
def specialsForDay (db : DB) (service : ServiceRow) (serviceId businessId date : Nat) :
    List SpecialAvailabilityRow :=
  db.special_availability.filter (fun sp =>
    (sp.business_id == some businessId ||
      (service.requires_staff &&
        db.staff_services.any (fun ss =>
          ss.service_id == serviceId && sp.staff_member_id == some ss.staff_member_id))) &&
    sp.date == date)

/-- The closure-filtering loop of `getAvailableSlots`: a partial closure
(`is_available=false` with truthy start and end) filters out overlapping
slots; any other `is_available=false` row is a full-day closure that
empties the list and breaks; `is_available=true` rows are inert. -/
def applySpecials : List SpecialAvailabilityRow → List TimeSlot → List TimeSlot
  | [], slots => slots
  | sp :: rest, slots =>
    if !sp.is_available then
      if strTruthy sp.start_time && strTruthy sp.end_time then
        applySpecials rest (slots.filter (fun slot =>
          !timeSlotsOverlap slot.start_time slot.end_time
            (sp.start_time.getD "") (sp.end_time.getD "")))
      else []
    else applySpecials rest slots

/-- The per-slot conflict-marking loop of `getAvailableSlots`: the first
overlapping booking that conflicts (same staff member for staff services;
`party_size >= capacity` for capacity services) returns the slot with
`available := false`; otherwise the slot is returned unchanged. -/
def markSlotLoop (service : ServiceRow) (slot : TimeSlot) : List BookingRow → TimeSlot
  | [] => slot
  | b :: rest =>
    if timeSlotsOverlap slot.start_time slot.end_time b.start_time b.end_time then
      if service.requires_staff then
        if slot.staff_member_id == b.staff_member_id then { slot with available := false }
        else markSlotLoop service slot rest
      else
        if service.capacity ≤ b.party_size then { slot with available := false }
        else markSlotLoop service slot rest
    else markSlotLoop service slot rest

/-- Sort key of the final `sort` comparator:
`timeStringToMinutes(a.start_time) - timeStringToMinutes(b.start_time)`
(all slots reaching the sort carry generated, parseable times). -/
def slotSortKey (slot : TimeSlot) : Nat :=
  (timeStringToMinutes slot.start_time).getD 0

/-- Ordered insertion before the first strictly greater key (a stable
ascending sort step). -/
def insertSlot (a : TimeSlot) : List TimeSlot → List TimeSlot
  | [] => [a]
  | h :: t => if slotSortKey a < slotSortKey h then a :: h :: t else h :: insertSlot a t

/-- The ascending stable sort by start time at the end of
`getAvailableSlots` (`Array.prototype.sort` with the numeric comparator),
modelled as insertion sort; the claims below depend on the sort only
through membership. -/
def sortSlots : List TimeSlot → List TimeSlot
  | [] => []
  | h :: t => insertSlot h (sortSlots t)

/-- The duplicate test of the final `filter`/`findIndex` pass:
same start, end and staff id. -/
def sameSlotKey (s t : TimeSlot) : Bool :=
  s.start_time == t.start_time && s.end_time == t.end_time &&
  s.staff_member_id == t.staff_member_id

/-- The de-duplication pass
(`filter((slot, i, arr) => i === arr.findIndex(sameKey))`): keep a slot
exactly when no earlier slot has the same (start, end, staff) key. -/
def dedupSlotsAux (seen : List TimeSlot) : List TimeSlot → List TimeSlot
  | [] => []
  | s :: rest =>
    if seen.any (fun t => sameSlotKey t s) then dedupSlotsAux seen rest
    else s :: dedupSlotsAux (s :: seen) rest

def dedupSlots (l : List TimeSlot) : List TimeSlot := dedupSlotsAux [] l

/-- `AvailabilityService.getAvailableSlots`: generate candidate slots from
the weekly rules (staff- or business-scoped), remove special closures,
mark booking conflicts, sort and de-duplicate.  `Except.error` is the
thrown `Error('Service not found')`. -/
def getAvailableSlots (db : DB) (businessId serviceId date : Nat) :
    Except String DayAvailability :=
  let dow := dayOfWeek date
  match findService db serviceId businessId with
  | none => Except.error "Service not found"
  | some service =>
    let slots0 :=
      if service.requires_staff then staffGeneratedSlots db service serviceId dow
      else businessGeneratedSlots db service businessId dow
    let slots1 := applySpecials (specialsForDay db service serviceId businessId date) slots0
    let slots2 := slots1.map (fun slot =>
      markSlotLoop service slot (relevantBookings db businessId serviceId date))
    Except.ok { date := date, day_of_week := dow, time_slots := dedupSlots (sortSlots slots2) }

/-- A day record with no slots, as pushed by the `catch` branch of
`getWeekAvailability`. -/
def emptyDay (date : Nat) : DayAvailability :=
  { date := date, day_of_week := dayOfWeek date, time_slots := [] }

/-- `AvailabilityService.getWeekAvailability`: resolve the slug, then 7
consecutive `getAvailableSlots` calls; a per-day failure degrades to an
empty day instead of aborting the loop. -/
def getWeekAvailability (db : DB) (businessSlug : String) (serviceId startDate : Nat) :
    Except String (List DayAvailability) :=
  match getBusinessIdFromSlug db businessSlug with
  | none => Except.error "Business not found"
  | some businessId =>
    Except.ok ((List.range 7).map (fun i =>
      match getAvailableSlots db businessId serviceId (startDate + i) with
      | Except.ok day => day
      | Except.error _ => emptyDay (startDate + i)))

/-! ## `isTimeSlotAvailable` -/

structure AvailCheck where
  available : Bool
  reason : Option String
deriving Repr, DecidableEq

/-- `reason || default` on a nullable string. -/
def reasonOrDefault (r : Option String) (d : String) : String :=
  if strTruthy r then r.getD "" else d

/-- The `some(...)` working-hours test of `isTimeSlotAvailable`:
`toMinutes(startTime) >= toMinutes(rule.start_time) &&
 toMinutes(endTime) <= toMinutes(rule.end_time)` (false on `NaN`). -/
def isWithinRules (rules : List AvailabilityRuleRow) (startTime endTime : String) : Bool :=
  rules.any (fun rule =>
    optLe (timeStringToMinutes rule.start_time) (timeStringToMinutes startTime) &&
    optLe (timeStringToMinutes endTime) (timeStringToMinutes rule.end_time))

/-- The `special_availability` rows fetched by `isTimeSlotAvailable`:
`(business_id = ? OR staff_member_id = ?) AND date = ?`, with the staff
disjunct only when `staffMemberId` is truthy. -/
def specialsForCheck (db : DB) (businessId : Nat) (staffMemberId : Option Nat)
    (date : Nat) : List SpecialAvailabilityRow :=
  db.special_availability.filter (fun sp =>
    (sp.business_id == some businessId ||
      (numTruthy staffMemberId && sp.staff_member_id == staffMemberId)) &&
    sp.date == date)

/-- The special-availability loop of `isTimeSlotAvailable`: returns the
rejection reason of the first blocking closure, if any. -/
def specialBlocks (startTime endTime : String) : List SpecialAvailabilityRow → Option String
  | [] => none
  | sp :: rest =>
    if !sp.is_available then
      if strTruthy sp.start_time && strTruthy sp.end_time then
        if timeSlotsOverlap startTime endTime (sp.start_time.getD "") (sp.end_time.getD "") then
          some (reasonOrDefault sp.reason "Special closure during requested time")
        else specialBlocks startTime endTime rest
      else some (reasonOrDefault sp.reason "Business/staff not available on this date")
    else specialBlocks startTime endTime rest

/-- The candidate conflicting bookings fetched by `isTimeSlotAvailable`:
the `relevantBookings` query plus `AND staff_member_id = ?` for staff
services with a truthy staff id, and `AND id != ?` for a truthy
`excludeBookingId`. -/
def conflictCandidates (db : DB) (businessId serviceId date : Nat) (service : ServiceRow)
    (staffMemberId excludeBookingId : Option Nat) : List BookingRow :=
  db.bookings.filter (fun b =>
    b.business_id == businessId && b.service_id == serviceId &&
    b.booking_date == date && (b.status == "confirmed" || b.status == "pending") &&
    (if service.requires_staff && numTruthy staffMemberId
      then b.staff_member_id == staffMemberId else true) &&
    (if numTruthy excludeBookingId then b.id != excludeBookingId.getD 0 else true))

/-- The conflict loop of `isTimeSlotAvailable`: an overlapping booking is
tolerated only for a capacity service when
`partySize + booking.party_size <= capacity`; any other overlap is a
conflict. -/
def conflictLoop (service : ServiceRow) (partySize : Nat) (startTime endTime : String) :
    List BookingRow → Bool
  | [] => false
  | b :: rest =>
    if timeSlotsOverlap startTime endTime b.start_time b.end_time then
      if !service.requires_staff && partySize + b.party_size ≤ service.capacity then
        conflictLoop service partySize startTime endTime rest
      else true
    else conflictLoop service partySize startTime endTime rest

/-- `AvailabilityService.isTimeSlotAvailable`: service lookup, party-size
cap, weekly-rule containment (staff- or business-scoped), special
closures, then the booking-conflict loop. -/
def isTimeSlotAvailable (db : DB) (businessId serviceId : Nat) (staffMemberId : Option Nat)
    (date : Nat) (startTime endTime : String) (partySize : Nat)
    (excludeBookingId : Option Nat) : AvailCheck :=
  match findService db serviceId businessId with
  | none => { available := false, reason := some "Service not found or inactive" }
  | some service =>
    if service.capacity < partySize then
      { available := false
        reason := some ("Party size exceeds capacity (max: " ++ natToStr service.capacity ++ ")") }
    else
      let dow := dayOfWeek date
      let ruleCheck : Option AvailCheck :=
        if service.requires_staff && numTruthy staffMemberId then
          let staffRules := staffRulesFor db (staffMemberId.getD 0) dow
          if staffRules.isEmpty then
            some { available := false, reason := some "Staff not available on this day" }
          else if !isWithinRules staffRules startTime endTime then
            some { available := false, reason := some "Requested time is outside staff working hours" }
          else none
        else
          let businessRules := businessRulesFor db businessId dow
          if businessRules.isEmpty then
            some { available := false, reason := some "Business closed on this day" }
          else if !isWithinRules businessRules startTime endTime then
            some { available := false, reason := some "Requested time is outside business hours" }
          else none
      match ruleCheck with
      | some r => r
      | none =>
        match specialBlocks startTime endTime (specialsForCheck db businessId staffMemberId date) with
        | some reason => { available := false, reason := some reason }
        | none =>
          if conflictLoop service partySize startTime endTime
              (conflictCandidates db businessId serviceId date service staffMemberId excludeBookingId) then
            { available := false, reason := some "Time slot already booked" }
          else { available := true, reason := none }

/-- The `HH:MM` regex of `validateBookingRequest`:
`^([01]?[0-9]|2[0-3]):[0-5][0-9]$`. -/
def matchesTimeRegex (s : String) : Bool :=
  match splitOnChar ':' s.data with
  | [h, m] =>
    (match h with
     | [c] => c.isDigit
     | [c1, c2] =>
       ((c1 == '0' || c1 == '1') && c2.isDigit) ||
       (c1 == '2' && (c2 == '0' || c2 == '1' || c2 == '2' || c2 == '3'))
     | _ => false) &&
    (match m with
     | [c1, c2] =>
       (c1 == '0' || c1 == '1' || c1 == '2' || c1 == '3' || c1 == '4' || c1 == '5') &&
       c2.isDigit
     | _ => false)
  | _ => false

/-- `AvailabilityService.validateBookingRequest`: accumulate format,
ordering, past-date and staff errors; hard-stop on a missing service; and
only when no error has accumulated, delegate to `isTimeSlotAvailable`.
`today` is the caller's calendar day (the zeroed-out `new Date()`). -/
def validateBookingRequest (db : DB) (today : Nat) (businessId serviceId : Nat)
    (staffMemberId : Option Nat) (bookingDate : Nat) (startTime endTime : String)
    (partySize : Nat) (excludeBookingId : Option Nat) : Bool × List String :=
  let errs1 :=
    if !matchesTimeRegex startTime || !matchesTimeRegex endTime then
      ["Invalid time format. Use HH:MM"]
    else []
  let errs2 := errs1 ++
    (if optLe (timeStringToMinutes endTime) (timeStringToMinutes startTime) then
      ["End time must be after start time"]
    else [])
  let errs3 := errs2 ++ (if bookingDate < today then ["Cannot book in the past"] else [])
  match findService db serviceId businessId with
  | none => (false, errs3 ++ ["Service not found or inactive"])
  | some service =>
    let errs4 := errs3 ++
      (if service.requires_staff then
        if !numTruthy staffMemberId then ["Staff member is required for this service"]
        else if !canStaffPerformService db (staffMemberId.getD 0) serviceId then
          ["Selected staff member cannot perform this service"]
        else []
      else [])
    if errs4.isEmpty then
      let r := isTimeSlotAvailable db businessId serviceId staffMemberId bookingDate
        startTime endTime partySize excludeBookingId
      if !r.available then (false, [reasonOrDefault r.reason "Time slot not available"])
      else (true, [])
    else (false, errs4)

/-! ## BookingService (create/read omitted; `updateBooking` and
`cancelBooking` as in the cited source lines) -/

/-- `BookingUpdateInput`: an absent field is `undefined` (`none`). All
eleven `ALLOWED_UPDATE_FIELDS` are represented. -/
structure BookingUpdateInput where
  customer_name : Option String := none
  customer_email : Option String := none
  customer_phone : Option String := none
  booking_date : Option Nat := none
  start_time : Option String := none
  end_time : Option String := none
  party_size : Option Nat := none
  special_requests : Option String := none
  status : Option String := none
  payment_status : Option String := none
  cancellation_reason : Option String := none
deriving Repr, DecidableEq

/-- The row `getBookingById` returns: the booking joined (INNER) with its
business — the join supplies `cancellation_hours` — and requiring the
service row to exist (also an INNER join). -/
structure JoinedBooking where
  booking : BookingRow
  business : BusinessRow
deriving Repr, DecidableEq

/-- `BookingService.getBookingById`. -/
def getBookingById (db : DB) (bookingId : Nat) : Option JoinedBooking :=
  match db.bookings.find? (fun b => b.id == bookingId) with
  | none => none
  | some b =>
    match db.businesses.find? (fun bus => bus.id == b.business_id),
          db.services.find? (fun s => s.id == b.service_id) with
    | some bus, some _ => some { booking := b, business := bus }
    | _, _ => none

/-- The caller's clock: `today` is the zeroed-out calendar day used by the
past-date check, `nowMinutes` the current instant in minutes since day 0
00:00 (the `new Date()` of `cancelBooking`), `timestamp` the value the SQL
`NOW()` writes. -/
structure Clock where
  today : Nat
  nowMinutes : Int
  timestamp : Nat
deriving Repr, DecidableEq

/-- Result shape `{ success, errors? }` of the lifecycle operations. -/
structure OpResult where
  success : Bool
  errors : List String := []
deriving Repr, DecidableEq

/-- `updates.booking_date || updates.start_time || updates.end_time ||
updates.party_size` — the truthiness test deciding whether `updateBooking`
re-validates (a present date string is always truthy; `party_size: 0` and
empty time strings are falsy). -/
def hasTimingUpdate (u : BookingUpdateInput) : Bool :=
  u.booking_date.isSome || strTruthy u.start_time || strTruthy u.end_time ||
  numTruthy u.party_size

/-- `updates[field] !== undefined` over the `ALLOWED_UPDATE_FIELDS`. -/
def hasAnyUpdateField (u : BookingUpdateInput) : Bool :=
  u.customer_name.isSome || u.customer_email.isSome || u.customer_phone.isSome ||
  u.booking_date.isSome || u.start_time.isSome || u.end_time.isSome ||
  u.party_size.isSome || u.special_requests.isSome || u.status.isSome ||
  u.payment_status.isSome || u.cancellation_reason.isSome

/-- The `UPDATE bookings SET ...` row transformation: each present field
overwrites the column; `cancelled_at = NOW()` is added when the status
turns to `cancelled` for the first time; `updated_at = NOW()` always. -/
def applyBookingUpdate (clock : Clock) (existingStatus : String)
    (u : BookingUpdateInput) (b : BookingRow) : BookingRow :=
  { b with
    customer_name := u.customer_name.getD b.customer_name
    customer_email := u.customer_email.getD b.customer_email
    customer_phone := match u.customer_phone with
      | some p => some p
      | none => b.customer_phone
    booking_date := u.booking_date.getD b.booking_date
    start_time := u.start_time.getD b.start_time
    end_time := u.end_time.getD b.end_time
    party_size := u.party_size.getD b.party_size
    special_requests := match u.special_requests with
      | some s => some s
      | none => b.special_requests
    status := u.status.getD b.status
    payment_status := u.payment_status.getD b.payment_status
    cancellation_reason := match u.cancellation_reason with
      | some r => some r
      | none => b.cancellation_reason
    cancelled_at :=
      if u.status == some "cancelled" && existingStatus != "cancelled" then
        some clock.timestamp
      else b.cancelled_at
    updated_at := some clock.timestamp }

/-- `BookingService.updateBooking`: load the booking; if any timing field
changes, re-validate with the merged values and `excludeBookingId = id`;
reject when no allow-listed field is present; otherwise write the update.
Returns the result and the database after the call. -/
def updateBooking (db : DB) (clock : Clock) (bookingId : Nat)
    (updates : BookingUpdateInput) : OpResult × DB :=
  match getBookingById db bookingId with
  | none => ({ success := false, errors := ["Booking not found"] }, db)
  | some jb =>
    let validationErrors : Option (List String) :=
      if hasTimingUpdate updates then
        let v := validateBookingRequest db clock.today jb.booking.business_id
          jb.booking.service_id jb.booking.staff_member_id
          (updates.booking_date.getD jb.booking.booking_date)
          (orFalsyStr updates.start_time jb.booking.start_time)
          (orFalsyStr updates.end_time jb.booking.end_time)
          (orFalsyNat updates.party_size jb.booking.party_size)
          (some bookingId)
        if !v.1 then some v.2 else none
      else none
    match validationErrors with
    | some errs => ({ success := false, errors := errs }, db)
    | none =>
      if !hasAnyUpdateField updates then
        ({ success := false, errors := ["No fields to update"] }, db)
      else
        ({ success := true },
          { db with bookings := db.bookings.map (fun b =>
              if b.id == bookingId then
                applyBookingUpdate clock jb.booking.status updates b
              else b) })

/-- `BookingService.cancelBooking`: load the booking; reject a mismatched
email (case-insensitively) and an already-cancelled booking; reject when
fewer than `cancellation_hours` (`|| 24`) hours remain before the
booking's date-plus-start-time; otherwise delegate to `updateBooking`
with `status = 'cancelled'`.  The JS float comparison
`(bookingMs - nowMs)/3600000 < hours` is stated equivalently over minutes
as `bookingMinutes - nowMinutes < hours * 60`; a booking start time that
fails to parse makes the JS comparison `NaN < hours`, i.e. false, so the
cancellation proceeds — modelled by `tooLate := false` on `none`. -/
def cancelBooking (db : DB) (clock : Clock) (bookingId : Nat)
    (customerEmail : String) (reason : Option String) : OpResult × DB :=
  match getBookingById db bookingId with
  | none => ({ success := false, errors := ["Booking not found"] }, db)
  | some jb =>
    if jsToLower jb.booking.customer_email != jsToLower customerEmail then
      ({ success := false, errors := ["Email does not match booking"] }, db)
    else if jb.booking.status == "cancelled" then
      ({ success := false, errors := ["Booking already cancelled"] }, db)
    else
      let cancellationHours := orFalsyNat jb.business.cancellation_hours 24
      let tooLate : Bool :=
        match timeStringToMinutes jb.booking.start_time with
        | some m =>
          decide ((jb.booking.booking_date * 1440 + m : Int) - clock.nowMinutes <
            cancellationHours * 60)
        | none => false
      if tooLate then
        ({ success := false
           errors := ["Must cancel at least " ++ natToStr cancellationHours ++
             " hours before booking"] }, db)
      else
        updateBooking db clock bookingId
          { status := some "cancelled"
            cancellation_reason := some (orFalsyStr reason "Customer cancellation") }

/-! ## Supporting lemmas about `getAvailableSlots` and
`isTimeSlotAvailable` -/

theorem markSlotLoop_eq_or (service : ServiceRow) (slot : TimeSlot) (bs : List BookingRow) :
    markSlotLoop service slot bs = slot ∨
    markSlotLoop service slot bs = { slot with available := false } := by
  induction bs with
  | nil => left; rfl
  | cons b rest ih =>
    simp only [markSlotLoop]
    split_ifs <;> first
      | (right; rfl)
      | exact ih

theorem markSlotLoop_start_time (service : ServiceRow) (slot : TimeSlot)
    (bs : List BookingRow) :
    (markSlotLoop service slot bs).start_time = slot.start_time := by
  rcases markSlotLoop_eq_or service slot bs with h | h <;> rw [h]

theorem markSlotLoop_end_time (service : ServiceRow) (slot : TimeSlot)
    (bs : List BookingRow) :
    (markSlotLoop service slot bs).end_time = slot.end_time := by
  rcases markSlotLoop_eq_or service slot bs with h | h <;> rw [h]

/-- For a capacity service the marking loop is exactly "unavailable iff
some overlapping booking has `party_size ≥ capacity`". -/
theorem markSlotLoop_capacity (service : ServiceRow) (slot : TimeSlot)
    (hrs : service.requires_staff = false) (bs : List BookingRow) :
    markSlotLoop service slot bs =
      if bs.any (fun b =>
          timeSlotsOverlap slot.start_time slot.end_time b.start_time b.end_time &&
          decide (service.capacity ≤ b.party_size))
      then { slot with available := false } else slot := by
  induction bs with
  | nil => simp [markSlotLoop]
  | cons b rest ih =>
    simp only [markSlotLoop, hrs, if_false, List.any_cons]
    by_cases hov : timeSlotsOverlap slot.start_time slot.end_time b.start_time b.end_time
    · rw [if_pos hov]
      by_cases hcap : service.capacity ≤ b.party_size
      · rw [if_pos hcap]
        simp [hov, hcap]
      · rw [if_neg hcap, ih]
        simp [hov, hcap]
    · rw [if_neg hov, ih]
      simp [hov]

/-- The conflict loop of `isTimeSlotAvailable` as an `any`. -/
theorem conflictLoop_eq_any (service : ServiceRow) (partySize : Nat)
    (sT eT : String) (bs : List BookingRow) :
    conflictLoop service partySize sT eT bs =
      bs.any (fun b =>
        timeSlotsOverlap sT eT b.start_time b.end_time &&
        !(!service.requires_staff && decide (partySize + b.party_size ≤ service.capacity))) := by
  induction bs with
  | nil => simp [conflictLoop]
  | cons b rest ih =>
    simp only [conflictLoop, List.any_cons]
    by_cases hov : timeSlotsOverlap sT eT b.start_time b.end_time
    · rw [if_pos hov]
      by_cases htol : (!service.requires_staff && decide (partySize + b.party_size ≤ service.capacity)) = true
      · rw [if_pos htol, ih]
        simp [hov, htol]
      · rw [if_neg htol]
        simp only [Bool.not_eq_true] at htol
        simp [hov, htol]
    · rw [if_neg hov, ih]
      simp [hov]

/-- Surviving the closure-filtering pass means: the slot was a candidate,
and every `is_available=false` special in the list is a partial closure
that does not overlap the slot. -/
theorem applySpecials_mem (sps : List SpecialAvailabilityRow) :
    ∀ slots slot, slot ∈ applySpecials sps slots →
      slot ∈ slots ∧ ∀ sp ∈ sps, sp.is_available = false →
        ((strTruthy sp.start_time && strTruthy sp.end_time) = true ∧
         timeSlotsOverlap slot.start_time slot.end_time
           (sp.start_time.getD "") (sp.end_time.getD "") = false) := by
  induction sps with
  | nil =>
    intro slots slot h
    exact ⟨h, by simp⟩
  | cons sp rest ih =>
    intro slots slot h
    simp only [applySpecials] at h
    by_cases hav : sp.is_available
    · rw [hav] at h
      simp only [Bool.not_true, if_false] at h
      obtain ⟨hmem, hrest⟩ := ih slots slot h
      refine ⟨hmem, ?_⟩
      intro sp' hsp' hfalse
      rcases List.mem_cons.mp hsp' with rfl | hmem'
      · exact absurd hav (by simp [hfalse])
      · exact hrest sp' hmem' hfalse
    · simp only [Bool.not_eq_true] at hav
      rw [hav] at h
      simp only [Bool.not_false, if_true] at h
      by_cases htr : (strTruthy sp.start_time && strTruthy sp.end_time) = true
      · rw [if_pos htr] at h
        obtain ⟨hmem, hrest⟩ := ih _ slot h
        rw [List.mem_filter] at hmem
        refine ⟨hmem.1, ?_⟩
        intro sp' hsp' hfalse
        rcases List.mem_cons.mp hsp' with rfl | hmem'
        · refine ⟨htr, ?_⟩
          have := hmem.2
          simpa using this
        · exact hrest sp' hmem' hfalse
      · rw [if_neg htr] at h
        exact absurd h (by simp)

/-- With only harmless specials (each closure partial and non-overlapping),
the validator's special-availability loop finds nothing to block. -/
theorem specialBlocks_eq_none (sT eT : String) (sps : List SpecialAvailabilityRow)
    (h : ∀ sp ∈ sps, sp.is_available = false →
      ((strTruthy sp.start_time && strTruthy sp.end_time) = true ∧
       timeSlotsOverlap sT eT (sp.start_time.getD "") (sp.end_time.getD "") = false)) :
    specialBlocks sT eT sps = none := by
  induction sps with
  | nil => rfl
  | cons sp rest ih =>
    simp only [specialBlocks]
    by_cases hav : sp.is_available
    · rw [hav]
      simp only [Bool.not_true, if_false]
      exact ih (fun sp' h' hf => h sp' (by simp [h']) hf)
    · simp only [Bool.not_eq_true] at hav
      rw [hav]
      obtain ⟨htr, hov⟩ := h sp (by simp) hav
      rw [htr]
      simp only [Bool.not_false, if_true, if_pos rfl, hov]
      rw [if_neg (by simp)]
      exact ih (fun sp' h' hf => h sp' (by simp [h']) hf)

/-- A full-day closure anywhere in the specials list empties the slot
list. -/
theorem applySpecials_full_closure (sps : List SpecialAvailabilityRow)
    (sp0 : SpecialAvailabilityRow) (h0 : sp0 ∈ sps)
    (hav : sp0.is_available = false)
    (htr : (strTruthy sp0.start_time && strTruthy sp0.end_time) = false) :
    ∀ slots, applySpecials sps slots = [] := by
  induction sps with
  | nil => exact absurd h0 (by simp)
  | cons sp rest ih =>
    intro slots
    simp only [applySpecials]
    rcases List.mem_cons.mp h0 with rfl | hmem
    · rw [hav]
      simp only [Bool.not_false, if_true]
      rw [if_neg (by simp [htr])]
    · by_cases hsp : sp.is_available
      · rw [hsp]
        simp only [Bool.not_true, if_false]
        exact ih hmem slots
      · simp only [Bool.not_eq_true] at hsp
        rw [hsp]
        simp only [Bool.not_false, if_true]
        by_cases htr' : (strTruthy sp.start_time && strTruthy sp.end_time) = true
        · rw [if_pos htr']
          exact ih hmem _
        · rw [if_neg htr']

theorem dedupSlotsAux_subset (l : List TimeSlot) :
    ∀ seen slot, slot ∈ dedupSlotsAux seen l → slot ∈ l := by
  induction l with
  | nil => intro seen slot h; exact absurd h (by simp [dedupSlotsAux])
  | cons s rest ih =>
    intro seen slot h
    simp only [dedupSlotsAux] at h
    by_cases hseen : seen.any (fun t => sameSlotKey t s)
    · rw [if_pos hseen] at h
      exact List.mem_cons_of_mem _ (ih seen slot h)
    · rw [if_neg hseen] at h
      rcases List.mem_cons.mp h with rfl | h2
      · exact List.mem_cons_self _ _
      · exact List.mem_cons_of_mem _ (ih _ slot h2)

theorem dedupSlots_subset (l : List TimeSlot) (slot : TimeSlot)
    (h : slot ∈ dedupSlots l) : slot ∈ l :=
  dedupSlotsAux_subset l [] slot h

theorem insertSlot_mem (a slot : TimeSlot) (l : List TimeSlot) :
    slot ∈ insertSlot a l ↔ slot = a ∨ slot ∈ l := by
  induction l with
  | nil => simp [insertSlot]
  | cons h t ih =>
    simp only [insertSlot]
    by_cases hlt : slotSortKey a < slotSortKey h
    · rw [if_pos hlt]
      simp
    · rw [if_neg hlt]
      simp [ih]
      tauto

theorem sortSlots_mem (l : List TimeSlot) (slot : TimeSlot) :
    slot ∈ sortSlots l ↔ slot ∈ l := by
  induction l with
  | nil => simp [sortSlots]
  | cons h t ih =>
    simp only [sortSlots, insertSlot_mem, ih, List.mem_cons]

theorem generateTimeSlotsT_mem (sStr eStr : String) (d buf : Nat) (slot : TimeSlot)
    (h : slot ∈ generateTimeSlotsT sStr eStr d buf) :
    ∃ s e c, timeStringToMinutes sStr = some s ∧ timeStringToMinutes eStr = some e ∧
      slot = mkSlot (c, c + d) ∧ s ≤ c ∧ c + d ≤ e := by
  cases hs : timeStringToMinutes sStr with
  | none =>
    rw [generateTimeSlotsT, hs] at h
    exact absurd h (by simp)
  | some s =>
    cases he : timeStringToMinutes eStr with
    | none =>
      rw [generateTimeSlotsT, hs, he] at h
      exact absurd h (by simp)
    | some e =>
      rw [generateTimeSlotsT, hs, he] at h
      obtain ⟨p, hp, hps⟩ := List.mem_map.mp h
      obtain ⟨c, rfl, hsc, hce⟩ := genSlots_mem _ _ _ _ p hp
      exact ⟨s, e, c, rfl, rfl, hps.symm, hsc, hce⟩

theorem businessGeneratedSlots_mem (db : DB) (service : ServiceRow)
    (businessId dow : Nat) (slot : TimeSlot)
    (h : slot ∈ businessGeneratedSlots db service businessId dow) :
    slot.available = true ∧ slot.staff_member_id = none ∧
    ∃ rule ∈ businessRulesFor db businessId dow, ∃ rs re c,
      timeStringToMinutes rule.start_time = some rs ∧
      timeStringToMinutes rule.end_time = some re ∧
      slot.start_time = minutesToTimeStr c ∧
      slot.end_time = minutesToTimeStr (c + service.duration_minutes) ∧
      rs ≤ c ∧ c + service.duration_minutes ≤ re := by
  rw [businessGeneratedSlots] at h
  obtain ⟨rule, hrule, hslot⟩ := List.mem_flatMap.mp h
  obtain ⟨rs, re, c, hprs, hpre, hmk, hsc, hce⟩ :=
    generateTimeSlotsT_mem _ _ _ _ _ hslot
  subst hmk
  exact ⟨rfl, rfl, rule, hrule, rs, re, c, hprs, hpre, rfl, rfl, hsc, hce⟩

theorem getAvailableSlots_date (db : DB) (businessId serviceId date : Nat)
    (day : DayAvailability)
    (h : getAvailableSlots db businessId serviceId date = Except.ok day) :
    day.date = date ∧ day.day_of_week = dayOfWeek date := by
  rw [getAvailableSlots] at h
  cases hsvc : findService db serviceId businessId with
  | none => rw [hsvc] at h; exact absurd h (by simp)
  | some service =>
    rw [hsvc] at h
    injection h with h
    rw [← h]
    exact ⟨rfl, rfl⟩

/-- Every slot of a capacity-scoped day decomposes as: a candidate slot
that survived the closure pass, run through the conflict-marking loop. -/
theorem getAvailableSlots_capacity_decomp (db : DB) (businessId serviceId date : Nat)
    (service : ServiceRow) (day : DayAvailability) (slot : TimeSlot)
    (hsvc : findService db serviceId businessId = some service)
    (hrs : service.requires_staff = false)
    (hok : getAvailableSlots db businessId serviceId date = Except.ok day)
    (hmem : slot ∈ day.time_slots) :
    ∃ slot1 ∈ applySpecials (specialsForDay db service serviceId businessId date)
        (businessGeneratedSlots db service businessId (dayOfWeek date)),
      slot = markSlotLoop service slot1 (relevantBookings db businessId serviceId date) := by
  rw [getAvailableSlots, hsvc] at hok
  injection hok with hok
  rw [← hok] at hmem
  simp only [hrs, if_false] at hmem
  have h1 := dedupSlots_subset _ _ hmem
  rw [sortSlots_mem] at h1
  obtain ⟨slot1, hslot1, hmap⟩ := List.mem_map.mp h1
  exact ⟨slot1, hslot1, hmap.symm⟩

/-- For a capacity service checked without a staff id, the validator's
special-availability query coincides with the one of `getAvailableSlots`. -/
theorem specialsForCheck_eq_specialsForDay (db : DB) (service : ServiceRow)
    (serviceId businessId date : Nat) (hrs : service.requires_staff = false) :
    specialsForCheck db businessId none date =
      specialsForDay db service serviceId businessId date := by
  rw [specialsForCheck, specialsForDay]
  apply List.filter_congr
  intro sp _
  simp [numTruthy, hrs]

/-- For a capacity service with no staff id and no excluded booking, the
validator's conflict query coincides with the one of `getAvailableSlots`. -/
theorem conflictCandidates_eq_relevantBookings (db : DB) (businessId serviceId date : Nat)
    (service : ServiceRow) (hrs : service.requires_staff = false) :
    conflictCandidates db businessId serviceId date service none none =
      relevantBookings db businessId serviceId date := by
  rw [conflictCandidates, relevantBookings]
  apply List.filter_congr
  intro b _
  simp [numTruthy, hrs]

/-! ## Claims -/

/-- C3: for a capacity-scoped service (`requires_staff = false`),
`getAvailableSlots` marks a candidate slot `available = false` exactly
when some existing pending/confirmed booking for that business, service
and date overlaps the slot and that single booking's `party_size` meets or
exceeds `service.capacity` — the documented single-largest-booking
simplification, not a sum over all overlapping bookings. -/
theorem C3_capacity_single_booking_marking
    (db : DB) (businessId serviceId date : Nat) (service : ServiceRow)
    (day : DayAvailability) (slot : TimeSlot)
    (hsvc : findService db serviceId businessId = some service)
    (hrs : service.requires_staff = false)
    (hok : getAvailableSlots db businessId serviceId date = Except.ok day)
    (hmem : slot ∈ day.time_slots) :
    slot.available = false ↔
      ∃ b ∈ db.bookings, b.business_id = businessId ∧ b.service_id = serviceId ∧
        b.booking_date = date ∧ (b.status = "confirmed" ∨ b.status = "pending") ∧
        timeSlotsOverlap slot.start_time slot.end_time b.start_time b.end_time = true ∧
        service.capacity ≤ b.party_size := by
  obtain ⟨slot1, hs1, hsl⟩ :=
    getAvailableSlots_capacity_decomp db businessId serviceId date service day slot
      hsvc hrs hok hmem
  have hgen := (applySpecials_mem _ _ _ hs1).1
  have hav1 : slot1.available = true :=
    (businessGeneratedSlots_mem db service businessId (dayOfWeek date) slot1 hgen).1
  subst hsl
  rw [markSlotLoop_start_time, markSlotLoop_end_time,
    markSlotLoop_capacity service slot1 hrs]
  by_cases hany : (relevantBookings db businessId serviceId date).any (fun b =>
      timeSlotsOverlap slot1.start_time slot1.end_time b.start_time b.end_time &&
      decide (service.capacity ≤ b.party_size)) = true
  · rw [if_pos hany]
    simp only [show ({ slot1 with available := false } : TimeSlot).available = false from rfl,
      true_iff]
    obtain ⟨b, hbmem, hbp⟩ := List.any_eq_true.mp hany
    rw [relevantBookings, List.mem_filter] at hbmem
    simp only [Bool.and_eq_true, beq_iff_eq, Bool.or_eq_true] at hbmem
    simp only [Bool.and_eq_true, decide_eq_true_eq] at hbp
    obtain ⟨⟨⟨hbiz, hsvcid⟩, hdate⟩, hstatus⟩ := hbmem.2
    exact ⟨b, hbmem.1, hbiz, hsvcid, hdate, hstatus, hbp.1, hbp.2⟩
  · rw [if_neg hany]
    rw [hav1]
    simp only [Bool.true_eq_false, false_iff]
    intro hex
    apply hany
    obtain ⟨b, hbin, hbiz, hsvcid, hdate, hstatus, hov, hcap⟩ := hex
    refine List.any_eq_true.mpr ⟨b, ?_, ?_⟩
    · rw [relevantBookings, List.mem_filter]
      refine ⟨hbin, ?_⟩
      simp only [Bool.and_eq_true, beq_iff_eq, Bool.or_eq_true]
      exact ⟨⟨⟨hbiz, hsvcid⟩, hdate⟩, hstatus⟩
    · simp only [Bool.and_eq_true, decide_eq_true_eq]
      exact ⟨hov, hcap⟩

/-- C1 (amended): for a capacity-scoped service with `capacity ≥ 1`,
checked for `partySize = 1`, no staff id and no excluded booking, the
validator's conflict/rule logic (`isTimeSlotAvailable`, as called from
`validateBookingRequest`) reports a conflict exactly when the
day-availability computation (`getAvailableSlots`) marks the
corresponding slot `available = false`.  (For `partySize > 1` the two
disagree: the validator rejects when `partySize + party_size > capacity`
while the marking step only checks `party_size ≥ capacity` — see the
counterexample.) -/
theorem C1_amended_refinement
    (db : DB) (businessId serviceId date : Nat) (service : ServiceRow)
    (day : DayAvailability) (slot : TimeSlot)
    (hsvc : findService db serviceId businessId = some service)
    (hrs : service.requires_staff = false)
    (hcap1 : 1 ≤ service.capacity)
    (hok : getAvailableSlots db businessId serviceId date = Except.ok day)
    (hmem : slot ∈ day.time_slots) :
    ((isTimeSlotAvailable db businessId serviceId none date
        slot.start_time slot.end_time 1 none).available = false) ↔
      slot.available = false := by
  obtain ⟨slot1, hs1, hsl⟩ :=
    getAvailableSlots_capacity_decomp db businessId serviceId date service day slot
      hsvc hrs hok hmem
  have hspec := (applySpecials_mem _ _ _ hs1).2
  have hgen := (applySpecials_mem _ _ _ hs1).1
  obtain ⟨hav1, hstaff1, rule, hrule, rs, re, c, hprs, hpre, hst, het, hrsc, hcre⟩ :=
    businessGeneratedSlots_mem db service businessId (dayOfWeek date) slot1 hgen
  have hstart : slot.start_time = slot1.start_time := by
    rw [hsl, markSlotLoop_start_time]
  have hend : slot.end_time = slot1.end_time := by
    rw [hsl, markSlotLoop_end_time]
  have hpstart : timeStringToMinutes slot1.start_time = some c := by
    rw [hst]; exact timeStringToMinutes_minutesToTimeStr c
  have hpend : timeStringToMinutes slot1.end_time =
      some (c + service.duration_minutes) := by
    rw [het]; exact timeStringToMinutes_minutesToTimeStr _
  have hne : (businessRulesFor db businessId (dayOfWeek date)).isEmpty = false := by
    cases hl : businessRulesFor db businessId (dayOfWeek date) with
    | nil => rw [hl] at hrule; exact absurd hrule (List.not_mem_nil _)
    | cons x xs => rfl
  have hwithin : isWithinRules (businessRulesFor db businessId (dayOfWeek date))
      slot1.start_time slot1.end_time = true := by
    rw [isWithinRules]
    refine List.any_eq_true.mpr ⟨rule, hrule, ?_⟩
    rw [hprs, hpstart, hpend, hpre]
    simp [optLe, hrsc, hcre]
  rw [hstart, hend]
  simp only [isTimeSlotAvailable, hsvc]
  rw [if_neg (by omega)]
  simp only [hrs, numTruthy, Bool.false_and, Bool.and_false, if_false, hne,
    Bool.false_eq_true, hwithin, Bool.not_true]
  rw [specialsForCheck_eq_specialsForDay db service serviceId businessId date hrs]
  have hblocks : specialBlocks slot1.start_time slot1.end_time
      (specialsForDay db service serviceId businessId date) = none :=
    specialBlocks_eq_none _ _ _ (fun sp hsp hf => hspec sp hsp hf)
  rw [hblocks]
  rw [conflictCandidates_eq_relevantBookings db businessId serviceId date service hrs]
  rw [conflictLoop_eq_any]
  have hpred : ∀ b : BookingRow,
      (timeSlotsOverlap slot1.start_time slot1.end_time b.start_time b.end_time &&
        !(!service.requires_staff && decide (1 + b.party_size ≤ service.capacity))) =
      (timeSlotsOverlap slot1.start_time slot1.end_time b.start_time b.end_time &&
        decide (service.capacity ≤ b.party_size)) := by
    intro b
    have h1 : (1 + b.party_size ≤ service.capacity) ↔
        ¬(service.capacity ≤ b.party_size) := by omega
    by_cases h : service.capacity ≤ b.party_size <;> simp [hrs, h, h1]
  rw [show (fun b : BookingRow =>
      timeSlotsOverlap slot1.start_time slot1.end_time b.start_time b.end_time &&
        !(!service.requires_staff && decide (1 + b.party_size ≤ service.capacity))) =
      (fun b : BookingRow =>
      timeSlotsOverlap slot1.start_time slot1.end_time b.start_time b.end_time &&
        decide (service.capacity ≤ b.party_size)) from funext hpred]
  rw [hsl, markSlotLoop_capacity service slot1 hrs]
  by_cases hany : (relevantBookings db businessId serviceId date).any (fun b =>
      timeSlotsOverlap slot1.start_time slot1.end_time b.start_time b.end_time &&
      decide (service.capacity ≤ b.party_size)) = true
  · rw [if_pos hany, if_pos hany]
  · rw [if_neg hany, if_neg hany]
    simp [hav1]

/-- C6: a date-override row with `is_available = false` and no start/end
(whole-day closure) scoped to the business clears all availability for
that date: for a `requires_staff = false` service, `getAvailableSlots`
returns an empty slot list regardless of what the weekly rules would
otherwise generate. -/
theorem C6_full_day_closure
    (db : DB) (businessId serviceId date : Nat) (service : ServiceRow)
    (sp : SpecialAvailabilityRow)
    (hsvc : findService db serviceId businessId = some service)
    (hrs : service.requires_staff = false)
    (hsp : sp ∈ db.special_availability)
    (hbiz : sp.business_id = some businessId)
    (hdate : sp.date = date)
    (hclosed : sp.is_available = false)
    (hnostart : sp.start_time = none)
    (hnoend : sp.end_time = none) :
    getAvailableSlots db businessId serviceId date =
      Except.ok { date := date, day_of_week := dayOfWeek date, time_slots := [] } := by
  simp only [getAvailableSlots, hsvc, hrs, if_false]
  have hin : sp ∈ specialsForDay db service serviceId businessId date := by
    rw [specialsForDay, List.mem_filter]
    exact ⟨hsp, by simp [hbiz, hdate]⟩
  rw [applySpecials_full_closure _ sp hin hclosed
    (by rw [hnostart, hnoend]; rfl)]
  rfl

/-- C9: `getWeekAvailability` performs 7 consecutive per-day availability
computations starting at `startDate` and returns exactly 7 day records in
date order; a failing day yields an empty-slots record for that date only,
each other day's record being exactly its own `getAvailableSlots` result
(partial-failure isolation). -/
theorem C9_week_partial_failure_isolation
    (db : DB) (slug : String) (serviceId startDate businessId : Nat)
    (hbiz : getBusinessIdFromSlug db slug = some businessId) :
    ∃ week, getWeekAvailability db slug serviceId startDate = Except.ok week ∧
      week.length = 7 ∧
      ∀ i : Nat, ∀ h : i < week.length,
        ((getAvailableSlots db businessId serviceId (startDate + i) =
            Except.ok (week.get ⟨i, h⟩)) ∨
          ((∃ e, getAvailableSlots db businessId serviceId (startDate + i) =
              Except.error e) ∧
            week.get ⟨i, h⟩ = emptyDay (startDate + i))) ∧
        (week.get ⟨i, h⟩).date = startDate + i := by
  simp only [getWeekAvailability, hbiz]
  refine ⟨_, rfl, by simp, ?_⟩
  intro i h
  have hget : ∀ hh, ((List.range 7).map (fun i =>
      match getAvailableSlots db businessId serviceId (startDate + i) with
      | Except.ok day => day
      | Except.error _ => emptyDay (startDate + i))).get ⟨i, hh⟩ =
      match getAvailableSlots db businessId serviceId (startDate + i) with
      | Except.ok day => day
      | Except.error _ => emptyDay (startDate + i) := by
    intro hh
    simp
  rw [hget]
  cases hday : getAvailableSlots db businessId serviceId (startDate + i) with
  | ok day =>
    refine ⟨Or.inl rfl, ?_⟩
    exact (getAvailableSlots_date db businessId serviceId (startDate + i) day hday).1
  | error e =>
    exact ⟨Or.inr ⟨⟨e, rfl⟩, rfl⟩, rfl⟩

/-- C4 (amended): `timeStringToMinutes` parses a zero-padded 24-hour
`HH:MM` string into minutes since midnight; but it performs no format
validation and never fails — for inputs not matching the regex it still
returns a number (see the counterexample at `"99:99"`); the regex check
lives in `validateBookingRequest` instead. -/
theorem C4_amended_parses_hhmm (h m : Nat) (_hh : h < 24) (_hm : m < 60) :
    timeStringToMinutes (pad2 h ++ ":" ++ pad2 m) = some (h * 60 + m) :=
  timeStringToMinutes_pad_pair h m

/-- C5: `generateTimeSlots` emits consecutive slots of length `duration`
starting at the window start, advancing by `duration + bufferAfter` each
step while `cursor + duration ≤ windowEnd`: slot `i` starts at
`s + i*(duration+bufferAfter)`, every emitted slot lies within the window,
consecutive slot starts are exactly `duration + bufferAfter` apart, and a
window shorter than `duration` yields zero slots without error. -/
theorem C5_generateTimeSlots_shape
    (fuel : Nat) (sStr eStr : String) (d b s e : Nat) (slots : List TimeSlot)
    (hs : timeStringToMinutes sStr = some s)
    (he : timeStringToMinutes eStr = some e)
    (hgen : generateTimeSlots fuel sStr eStr d b = some slots) :
    ∃ ms : List (Nat × Nat),
      genLoop fuel s e d (d + b) = some ms ∧
      slots = ms.map mkSlot ∧
      (∀ i : Nat, ∀ h : i < ms.length,
        ms.get ⟨i, h⟩ = (s + i * (d + b), s + i * (d + b) + d)) ∧
      (∀ p ∈ ms, s ≤ p.1 ∧ p.2 = p.1 + d ∧ p.2 ≤ e) ∧
      (∀ i : Nat, ∀ h1 : i + 1 < ms.length, ∀ h0 : i < ms.length,
        (ms.get ⟨i + 1, h1⟩).1 = (ms.get ⟨i, h0⟩).1 + (d + b)) ∧
      (e < s + d → slots = []) := by
  simp only [generateTimeSlots, hs, he] at hgen
  cases hloop : genLoop fuel s e d (d + b) with
  | none => rw [hloop] at hgen; simp at hgen
  | some ms =>
    rw [hloop] at hgen
    injection hgen with hgen
    refine ⟨ms, rfl, hgen.symm, ?_, ?_, ?_, ?_⟩
    · intro i h
      exact (genLoop_get fuel s e d (d + b) ms hloop i h).1
    · intro p hp
      obtain ⟨⟨i, hi⟩, hip⟩ := List.mem_iff_get.mp hp
      have hG := genLoop_get fuel s e d (d + b) ms hloop i hi
      have hp' : p = (s + i * (d + b), s + i * (d + b) + d) := by
        rw [← hip, hG.1]
      have hp2 := hG.2
      subst hp'
      exact ⟨by omega, rfl, hp2⟩
    · intro i h1 h0
      have hA := (genLoop_get fuel s e d (d + b) ms hloop (i + 1) h1).1
      have hB := (genLoop_get fuel s e d (d + b) ms hloop i h0).1
      rw [hA, hB]
      ring_nf
    · intro hshort
      have hnil : genLoop fuel s e d (d + b) = some [] :=
        genLoop_empty_of_short fuel s e d (d + b) hshort
      rw [hloop] at hnil
      injection hnil with hnil
      subst hnil
      rw [← hgen]
      rfl

/-- C10: for parseable start/end strings and `duration + bufferAfter ≥ 1`,
the `generateTimeSlots` loop terminates — a fuel of `windowEnd + 1`
iterations suffices and a finite list is returned (the cursor strictly
increases each iteration; positivity of the step is exactly what
termination depends on: see `genLoop_stuck_of_zero_step`). -/
theorem C10_generateTimeSlots_terminates
    (sStr eStr : String) (d b s e : Nat)
    (hpos : 1 ≤ d + b)
    (hs : timeStringToMinutes sStr = some s)
    (he : timeStringToMinutes eStr = some e) :
    ∃ slots : List TimeSlot, generateTimeSlots (e + 1) sStr eStr d b = some slots := by
  simp only [generateTimeSlots, hs, he]
  obtain ⟨l, hl⟩ := genLoop_terminates (e + 1) s e d (d + b) hpos (by omega)
  exact ⟨l.map mkSlot, by rw [hl]; rfl⟩

/-- C2 (amended): `cancelBooking` never leaves the `cancelled` state — an
already-cancelled booking is rejected before any write, whatever the
requester email, so the database is unchanged.  (The original claim is
wider and false on the code: `updateBooking` applies any allow-listed
`status` with no transition check, so it can move a booking out of
`cancelled`, `completed` or `no_show` — see the counterexample — and
`cancelBooking` only guards against `cancelled`, not against `completed`
or `no_show`.) -/
theorem C2_amended_cancelled_terminal_in_cancel
    (db : DB) (clock : Clock) (bookingId : Nat) (customerEmail : String)
    (reason : Option String) (jb : JoinedBooking)
    (h : getBookingById db bookingId = some jb)
    (hstatus : jb.booking.status = "cancelled") :
    (cancelBooking db clock bookingId customerEmail reason).1.success = false ∧
    (cancelBooking db clock bookingId customerEmail reason).2 = db := by
  simp only [cancelBooking, h]
  by_cases hmail : (jsToLower jb.booking.customer_email != jsToLower customerEmail) = true
  · simp only [hmail, if_true]
    exact ⟨trivial, trivial⟩
  · simp only [Bool.not_eq_true] at hmail
    simp only [hmail, Bool.false_eq_true, if_false]
    have hbe : (jb.booking.status == "cancelled") = true := by simp [hstatus]
    simp only [hbe, if_true]
    exact ⟨trivial, trivial⟩

/-- C7: a cancellation request whose email does not case-insensitively
match the booking's customer email is rejected with
`"Email does not match booking"` and performs no write — the database
(hence the booking's status and every other persisted field) is
unchanged. -/
theorem C7_email_mismatch_rejection
    (db : DB) (clock : Clock) (bookingId : Nat) (customerEmail : String)
    (reason : Option String) (jb : JoinedBooking)
    (h : getBookingById db bookingId = some jb)
    (hmail : jsToLower jb.booking.customer_email ≠ jsToLower customerEmail) :
    cancelBooking db clock bookingId customerEmail reason =
      ({ success := false, errors := ["Email does not match booking"] }, db) := by
  have hb : (jsToLower jb.booking.customer_email != jsToLower customerEmail) = true := by
    simp [hmail]
  simp only [cancelBooking, h, hb, if_true]

/-- C8: with the email matched and the booking not yet cancelled,
`cancelBooking` compares the time remaining before the booking's
date-plus-start-time against the business's `cancellation_hours`
(`|| 24`, so also defaulting when unset): below the threshold it rejects
with the policy message naming the threshold and writes nothing;
otherwise it delegates to `updateBooking` with `status = 'cancelled'` and
the (defaulted) cancellation reason. -/
theorem C8_cancellation_policy_window
    (db : DB) (clock : Clock) (bookingId : Nat) (customerEmail : String)
    (reason : Option String) (jb : JoinedBooking) (m : Nat)
    (h : getBookingById db bookingId = some jb)
    (hmail : jsToLower jb.booking.customer_email = jsToLower customerEmail)
    (hstatus : jb.booking.status ≠ "cancelled")
    (hparse : timeStringToMinutes jb.booking.start_time = some m) :
    (((jb.booking.booking_date * 1440 + m : Int) - clock.nowMinutes <
        (orFalsyNat jb.business.cancellation_hours 24 : Nat) * 60 →
      cancelBooking db clock bookingId customerEmail reason =
        ({ success := false
           errors := ["Must cancel at least " ++
             natToStr (orFalsyNat jb.business.cancellation_hours 24) ++
             " hours before booking"] }, db)) ∧
     (¬((jb.booking.booking_date * 1440 + m : Int) - clock.nowMinutes <
        (orFalsyNat jb.business.cancellation_hours 24 : Nat) * 60) →
      cancelBooking db clock bookingId customerEmail reason =
        updateBooking db clock bookingId
          { status := some "cancelled"
            cancellation_reason := some (orFalsyStr reason "Customer cancellation") })) := by
  have hb : (jsToLower jb.booking.customer_email != jsToLower customerEmail) = false := by
    simp [hmail]
  have hbe : (jb.booking.status == "cancelled") = false := by simp [hstatus]
  constructor
  · intro hlt
    simp only [cancelBooking, h, hb, Bool.false_eq_true, if_false, hbe, hparse]
    rw [if_pos (by exact decide_eq_true hlt)]
  · intro hge
    simp only [cancelBooking, h, hb, Bool.false_eq_true, if_false, hbe, hparse]
    rw [if_neg (by simpa using hge)]

/-! ## Concrete data for counterexamples and witnesses -/

def wClock : Clock := { today := 0, nowMinutes := 0, timestamp := 99 }

def svcCap4 : ServiceRow :=
  { id := 1, business_id := 1, duration_minutes := 60, buffer_after_minutes := none
    requires_staff := false, capacity := 4, is_active := true }

def ruleThu : AvailabilityRuleRow :=
  { business_id := some 1, staff_member_id := none, day_of_week := 4
    start_time := "09:00", end_time := "12:00", is_active := true }

def bus1 : BusinessRow :=
  { id := 1, booking_link_slug := "the-slug", is_active := true
    cancellation_hours := none }

def bookingParty3 : BookingRow :=
  { id := 1, business_id := 1, service_id := 1, staff_member_id := none
    customer_name := "Alice", customer_email := "alice@example.com"
    customer_phone := none, booking_date := 0, start_time := "10:00"
    end_time := "11:00", party_size := 3, special_requests := none
    status := "confirmed", payment_status := "pending"
    cancellation_reason := none, cancelled_at := none, updated_at := none }

def c1DB : DB :=
  { businesses := [], services := [svcCap4], staff_members := []
    staff_services := [], availability_rules := [ruleThu]
    special_availability := [], bookings := [bookingParty3] }

def bookingParty4 : BookingRow := { bookingParty3 with party_size := 4 }

def c1wDB : DB := { c1DB with bookings := [bookingParty4] }

def c1wDay : DayAvailability :=
  { date := 0, day_of_week := 4, time_slots := [
    { start_time := "09:00", end_time := "10:00", available := true, staff_member_id := none },
    { start_time := "10:00", end_time := "11:00", available := false, staff_member_id := none },
    { start_time := "11:00", end_time := "12:00", available := true, staff_member_id := none }] }

def c1wSlot : TimeSlot :=
  { start_time := "10:00", end_time := "11:00", available := false, staff_member_id := none }

/-- C1 (counterexample): with capacity 4 and an existing confirmed booking
of party size 3 over 10:00–11:00, the validator called for that window
with party size 2 reports a conflict (`2 + 3 > 4`), while
`getAvailableSlots` leaves the corresponding 10:00–11:00 slot
`available = true` (`3 ≥ 4` fails) — so the two do NOT apply the same
booking-conflict rule for every party size. -/
theorem C1_counterexample :
    (isTimeSlotAvailable c1DB 1 1 none 0 ("10:00") ("11:00") 2 none).available = false ∧
    getAvailableSlots c1DB 1 1 0 = Except.ok
      { date := 0, day_of_week := 4, time_slots := [
        { start_time := "09:00", end_time := "10:00", available := true, staff_member_id := none },
        { start_time := "10:00", end_time := "11:00", available := true, staff_member_id := none },
        { start_time := "11:00", end_time := "12:00", available := true, staff_member_id := none }] } :=
  ⟨by decide, rfl⟩

/-- Witness for the amended C1 at a concrete database. -/
theorem C1_amended_witness :
    findService c1wDB 1 1 = some svcCap4 ∧
    svcCap4.requires_staff = false ∧
    1 ≤ svcCap4.capacity ∧
    getAvailableSlots c1wDB 1 1 0 = Except.ok c1wDay ∧
    c1wSlot ∈ c1wDay.time_slots ∧
    ((isTimeSlotAvailable c1wDB 1 1 none 0 c1wSlot.start_time c1wSlot.end_time
        1 none).available = false ↔ c1wSlot.available = false) :=
  ⟨rfl, rfl, by decide, rfl, by decide,
    C1_amended_refinement c1wDB 1 1 0 svcCap4 c1wDay c1wSlot rfl rfl (by decide)
      rfl (by decide)⟩

/-- Witness for C3 at a concrete database. -/
theorem C3_witness :
    findService c1wDB 1 1 = some svcCap4 ∧
    svcCap4.requires_staff = false ∧
    getAvailableSlots c1wDB 1 1 0 = Except.ok c1wDay ∧
    c1wSlot ∈ c1wDay.time_slots ∧
    (c1wSlot.available = false ↔
      ∃ b ∈ c1wDB.bookings, b.business_id = 1 ∧ b.service_id = 1 ∧
        b.booking_date = 0 ∧ (b.status = "confirmed" ∨ b.status = "pending") ∧
        timeSlotsOverlap c1wSlot.start_time c1wSlot.end_time b.start_time b.end_time = true ∧
        svcCap4.capacity ≤ b.party_size) :=
  ⟨rfl, rfl, rfl, by decide,
    C3_capacity_single_booking_marking c1wDB 1 1 0 svcCap4 c1wDay c1wSlot rfl rfl
      rfl (by decide)⟩

def cancelledBooking : BookingRow := { bookingParty3 with status := "cancelled" }

def c2DB : DB :=
  { businesses := [bus1], services := [svcCap4], staff_members := []
    staff_services := [], availability_rules := [ruleThu]
    special_availability := [], bookings := [cancelledBooking] }

def c2JB : JoinedBooking := { booking := cancelledBooking, business := bus1 }

/-- C2 (counterexample): `updateBooking` happily moves a `cancelled`
booking back to `confirmed` — no transition check guards the terminal
states. -/
theorem C2_counterexample :
    (updateBooking c2DB wClock 1 { status := some "confirmed" }).1.success = true ∧
    ((updateBooking c2DB wClock 1 { status := some "confirmed" }).2.bookings.map
      (fun b => b.status)) = ["confirmed"] := by
  decide

/-- Witness for the amended C2 at a concrete database. -/
theorem C2_amended_witness :
    getBookingById c2DB 1 = some c2JB ∧
    c2JB.booking.status = "cancelled" ∧
    ((cancelBooking c2DB wClock 1 ("alice@example.com") none).1.success = false ∧
     (cancelBooking c2DB wClock 1 ("alice@example.com") none).2 = c2DB) :=
  ⟨rfl, rfl,
    C2_amended_cancelled_terminal_in_cancel c2DB wClock 1 ("alice@example.com")
      none c2JB rfl rfl⟩

/-- C4 (counterexample): `"99:99"` does not match the `HH:MM` regex, yet
`timeStringToMinutes` does not fail — it returns the number 6039 (there is
no `FormatError` anywhere in the function). -/
theorem C4_counterexample :
    matchesTimeRegex ("99:99") = false ∧
    timeStringToMinutes ("99:99") = some 6039 := by
  decide

/-- Witness for the amended C4. -/
theorem C4_amended_witness :
    (9 : Nat) < 24 ∧ (30 : Nat) < 60 ∧
    timeStringToMinutes (pad2 9 ++ ":" ++ pad2 30) = some (9 * 60 + 30) :=
  ⟨by decide, by decide, C4_amended_parses_hhmm 9 30 (by decide) (by decide)⟩

/-- Witness for C5: a 09:00–10:30 window with 60-minute slots and no
buffer yields exactly the 09:00–10:00 slot, with the stated shape. -/
theorem C5_witness :
    timeStringToMinutes ("09:00") = some 540 ∧
    timeStringToMinutes ("10:30") = some 630 ∧
    generateTimeSlots 10 ("09:00") ("10:30") 60 0 =
      some [{ start_time := "09:00", end_time := "10:00", available := true,
              staff_member_id := none }] ∧
    (∃ ms : List (Nat × Nat),
      genLoop 10 540 630 60 (60 + 0) = some ms ∧
      [({ start_time := "09:00", end_time := "10:00", available := true,
          staff_member_id := none } : TimeSlot)] = ms.map mkSlot ∧
      (∀ i : Nat, ∀ h : i < ms.length,
        ms.get ⟨i, h⟩ = (540 + i * (60 + 0), 540 + i * (60 + 0) + 60)) ∧
      (∀ p ∈ ms, 540 ≤ p.1 ∧ p.2 = p.1 + 60 ∧ p.2 ≤ 630) ∧
      (∀ i : Nat, ∀ h1 : i + 1 < ms.length, ∀ h0 : i < ms.length,
        (ms.get ⟨i + 1, h1⟩).1 = (ms.get ⟨i, h0⟩).1 + (60 + 0)) ∧
      (630 < 540 + 60 →
        [({ start_time := "09:00", end_time := "10:00", available := true,
            staff_member_id := none } : TimeSlot)] = [])) :=
  ⟨by decide, by decide, by decide,
    C5_generateTimeSlots_shape 10 ("09:00") ("10:30") 60 0 540 630 _
      (by decide) (by decide) (by decide)⟩

def c6Special : SpecialAvailabilityRow :=
  { business_id := some 1, staff_member_id := none, date := 0
    start_time := none, end_time := none, is_available := false
    reason := some "Christmas" }

def c6DB : DB :=
  { businesses := [bus1], services := [svcCap4], staff_members := []
    staff_services := [], availability_rules := [ruleThu]
    special_availability := [c6Special], bookings := [] }

/-- Witness for C6: a whole-day closure override wipes the slots that the
09:00–12:00 weekly rule would otherwise generate. -/
theorem C6_witness :
    findService c6DB 1 1 = some svcCap4 ∧
    svcCap4.requires_staff = false ∧
    c6Special ∈ c6DB.special_availability ∧
    c6Special.business_id = some 1 ∧
    c6Special.date = 0 ∧
    c6Special.is_available = false ∧
    c6Special.start_time = none ∧
    c6Special.end_time = none ∧
    getAvailableSlots c6DB 1 1 0 =
      Except.ok { date := 0, day_of_week := dayOfWeek 0, time_slots := [] } :=
  ⟨rfl, rfl, by decide, rfl, rfl, rfl, rfl, rfl,
    C6_full_day_closure c6DB 1 1 0 svcCap4 c6Special rfl rfl (by decide)
      rfl rfl rfl rfl rfl⟩

def c7DB : DB :=
  { businesses := [bus1], services := [svcCap4], staff_members := []
    staff_services := [], availability_rules := [ruleThu]
    special_availability := [], bookings := [bookingParty3] }

def c7JB : JoinedBooking := { booking := bookingParty3, business := bus1 }

/-- Witness for C7 at a concrete database and mismatched email. -/
theorem C7_witness :
    getBookingById c7DB 1 = some c7JB ∧
    jsToLower c7JB.booking.customer_email ≠ jsToLower ("mallory@example.com") ∧
    cancelBooking c7DB wClock 1 ("mallory@example.com") none =
      ({ success := false, errors := ["Email does not match booking"] }, c7DB) :=
  ⟨rfl, by decide,
    C7_email_mismatch_rejection c7DB wClock 1 ("mallory@example.com") none c7JB
      rfl (by decide)⟩

def c8Booking : BookingRow := { bookingParty3 with booking_date := 2 }

def c8DB : DB :=
  { businesses := [bus1], services := [svcCap4], staff_members := []
    staff_services := [], availability_rules := [ruleThu]
    special_availability := [], bookings := [c8Booking] }

def c8JB : JoinedBooking := { booking := c8Booking, business := bus1 }

/-- Witness for C8 at a concrete database (booking 2 days out, default
24-hour policy). -/
theorem C8_witness :
    getBookingById c8DB 1 = some c8JB ∧
    jsToLower c8JB.booking.customer_email = jsToLower ("alice@example.com") ∧
    c8JB.booking.status ≠ "cancelled" ∧
    timeStringToMinutes c8JB.booking.start_time = some 600 ∧
    (((c8JB.booking.booking_date * 1440 + 600 : Int) - wClock.nowMinutes <
        (orFalsyNat c8JB.business.cancellation_hours 24 : Nat) * 60 →
      cancelBooking c8DB wClock 1 ("alice@example.com") none =
        ({ success := false
           errors := ["Must cancel at least " ++
             natToStr (orFalsyNat c8JB.business.cancellation_hours 24) ++
             " hours before booking"] }, c8DB)) ∧
     (¬((c8JB.booking.booking_date * 1440 + 600 : Int) - wClock.nowMinutes <
        (orFalsyNat c8JB.business.cancellation_hours 24 : Nat) * 60) →
      cancelBooking c8DB wClock 1 ("alice@example.com") none =
        updateBooking c8DB wClock 1
          { status := some "cancelled"
            cancellation_reason := some (orFalsyStr none "Customer cancellation") })) :=
  ⟨rfl, rfl, by decide, by decide,
    C8_cancellation_policy_window c8DB wClock 1 ("alice@example.com") none c8JB
      600 rfl rfl (by decide) (by decide)⟩

def c9DB : DB :=
  { businesses := [bus1], services := [svcCap4], staff_members := []
    staff_services := [], availability_rules := [ruleThu]
    special_availability := [], bookings := [] }

/-- Witness for C9 at a concrete database. -/
theorem C9_witness :
    getBusinessIdFromSlug c9DB ("the-slug") = some 1 ∧
    (∃ week, getWeekAvailability c9DB ("the-slug") 1 0 = Except.ok week ∧
      week.length = 7 ∧
      ∀ i : Nat, ∀ h : i < week.length,
        ((getAvailableSlots c9DB 1 1 (0 + i) = Except.ok (week.get ⟨i, h⟩)) ∨
          ((∃ e, getAvailableSlots c9DB 1 1 (0 + i) = Except.error e) ∧
            week.get ⟨i, h⟩ = emptyDay (0 + i))) ∧
        (week.get ⟨i, h⟩).date = 0 + i) :=
  ⟨rfl, C9_week_partial_failure_isolation c9DB ("the-slug") 1 0 1 rfl⟩

/-- Witness for C10 at a concrete window and step. -/
theorem C10_witness :
    (1 : Nat) ≤ 30 + 0 ∧
    timeStringToMinutes ("09:00") = some 540 ∧
    timeStringToMinutes ("10:00") = some 600 ∧
    (∃ slots : List TimeSlot,
      generateTimeSlots (600 + 1) ("09:00") ("10:00") 30 0 = some slots) :=
  ⟨by decide, by decide, by decide,
    C10_generateTimeSlots_terminates ("09:00") ("10:00") 30 0 540 600
      (by decide) (by decide) (by decide)⟩

end Book
